import Mathlib

/-!
Verification of the RDB (Redis dump file) streaming decoder in
`src/rdbtools/parser.py` against its natural-language specification.

The byte stream is shallowly embedded as a `List Nat` of byte values consumed
from the front; every reader returns `Option (result × remaining-stream)`,
with `Option.none` standing for an exception aborting the parse
(`struct.error`, explicit `raise`, ...).  In Python `f.read(n)` silently
returns fewer bytes at end of input, so raw byte-range reads are total
(`List.take` / `List.drop`) while the fixed-width `struct.unpack` readers
require the full width.

Python values handed to the callback are bytes, ints or `None`; they are
embedded as the tagged type `RStr`.  Floating point coercions performed by
the source (`float(score)` on sorted-set scores, the opportunistic
`int(value)` in the zipmap reader) are not modelled: events carry the raw
decoded value instead.  These coercions never change how many bytes are
consumed nor how many callbacks fire; their only effect on control flow is
that a failed `float(...)` aborts the whole parse, which only shrinks the
set of successful runs that the theorems below quantify over.
-/

/-- A value produced by the string codec: raw bytes, a decoded integer, or
Python `None` (returned by `read_string` on an unknown encoding selector). -/
inductive RStr where
  | bs : List Nat → RStr
  | i : Int → RStr
  | null : RStr
deriving DecidableEq, Repr

/-- Callback events, mirroring the `RdbCallback` interface.  The `zadd`
score is the raw decoded value (see header note on float coercion). -/
inductive Event where
  | start_rdb : Event
  | start_database : Nat → Event
  | end_database : Nat → Event
  | end_rdb : Event
  | set : RStr → RStr → Option Nat → Event
  | start_list : RStr → Nat → Option Nat → Event
  | rpush : RStr → RStr → Event
  | end_list : RStr → Event
  | start_set : RStr → Nat → Option Nat → Event
  | sadd : RStr → RStr → Event
  | end_set : RStr → Event
  | start_hash : RStr → Nat → Option Nat → Event
  | hset : RStr → RStr → RStr → Event
  | end_hash : RStr → Event
  | start_sorted_set : RStr → Nat → Option Nat → Event
  | zadd : RStr → RStr → RStr → Event
  | end_sorted_set : RStr → Event
deriving DecidableEq, Repr

/-- `struct.unpack` with format B on `f.read(1)`: one unsigned byte. -/
def read_unsigned_char : List Nat → Option (Nat × List Nat)
  | [] => Option.none
  | b :: rest => Option.some (b, rest)

/-- `struct.unpack` with format b on `f.read(1)`: one signed byte. -/
def read_signed_char (f : List Nat) : Option (Int × List Nat) :=
  match read_unsigned_char f with
  | Option.none => Option.none
  | Option.some (b, rest) =>
    Option.some (if b < 128 then (b : Int) else (b : Int) - 256, rest)

/-- `struct.unpack` with format H on `f.read(2)`: unsigned 16-bit little-endian. -/
def read_unsigned_short : List Nat → Option (Nat × List Nat)
  | b0 :: b1 :: rest => Option.some (b0 + 256 * b1, rest)
  | _ => Option.none

/-- `struct.unpack` with format h on `f.read(2)`: signed 16-bit little-endian. -/
def read_signed_short (f : List Nat) : Option (Int × List Nat) :=
  match read_unsigned_short f with
  | Option.none => Option.none
  | Option.some (u, rest) =>
    Option.some (if u < 32768 then (u : Int) else (u : Int) - 65536, rest)

/-- `struct.unpack` with format I on `f.read(4)`: unsigned 32-bit little-endian. -/
def read_unsigned_int : List Nat → Option (Nat × List Nat)
  | b0 :: b1 :: b2 :: b3 :: rest =>
    Option.some (b0 + 256 * b1 + 65536 * b2 + 16777216 * b3, rest)
  | _ => Option.none

/-- `struct.unpack` with format i on `f.read(4)`: signed 32-bit little-endian. -/
def read_signed_int (f : List Nat) : Option (Int × List Nat) :=
  match read_unsigned_int f with
  | Option.none => Option.none
  | Option.some (u, rest) =>
    Option.some (if u < 2147483648 then (u : Int) else (u : Int) - 4294967296, rest)

/-- `struct.unpack` with big-endian format on `f.read(4)`: unsigned 32-bit big-endian. -/
def read_big_endian_unsigned_int : List Nat → Option (Nat × List Nat)
  | b0 :: b1 :: b2 :: b3 :: rest =>
    Option.some (16777216 * b0 + 65536 * b1 + 256 * b2 + b3, rest)
  | _ => Option.none

/-- `read_24bit_signed_number`: prepends the ASCII digit zero, unpacks a
signed 32-bit value, then
arithmetic-shifts right by 8, i.e. a signed 24-bit little-endian read. -/
def read_24bit_signed_number : List Nat → Option (Int × List Nat)
  | b0 :: b1 :: b2 :: rest =>
    let u := b0 + 256 * b1 + 65536 * b2
    Option.some (if u < 8388608 then (u : Int) else (u : Int) - 16777216, rest)
  | _ => Option.none

/-- `struct.unpack` with format Q on `f.read(8)`: unsigned 64-bit little-endian. -/
def read_unsigned_long : List Nat → Option (Nat × List Nat)
  | b0 :: b1 :: b2 :: b3 :: b4 :: b5 :: b6 :: b7 :: rest =>
    Option.some (b0 + 256 * b1 + 65536 * b2 + 16777216 * b3 +
      4294967296 * b4 + 1099511627776 * b5 + 281474976710656 * b6 +
      72057594037927936 * b7, rest)
  | _ => Option.none

/-- `struct.unpack` with format q on `f.read(8)`: signed 64-bit little-endian. -/
def read_signed_long (f : List Nat) : Option (Int × List Nat) :=
  match read_unsigned_long f with
  | Option.none => Option.none
  | Option.some (u, rest) =>
    Option.some (if u < 9223372036854775808 then (u : Int)
      else (u : Int) - 18446744073709551616, rest)

/-- `skip(f, free)`: `f.read(free)` discarding the result; the Python `read`
is content to return fewer bytes at end of input, so this is total. -/
def skip (f : List Nat) (free : Nat) : List Nat := f.drop free

/-- `ntohl(f)`: reads an unsigned 32-bit little-endian value and swaps its
bytes with the mask-and-shift arithmetic of the source. -/
def ntohl (f : List Nat) : Option (Nat × List Nat) :=
  match read_unsigned_int f with
  | Option.none => Option.none
  | Option.some (val, rest) =>
    let new_val0 := 0 ||| ((val &&& 0x000000ff) <<< 24)
    let new_val1 := new_val0 ||| ((val &&& 0xff000000) >>> 24)
    let new_val2 := new_val1 ||| ((val &&& 0x0000ff00) <<< 8)
    let new_val3 := new_val2 ||| ((val &&& 0x00ff0000) >>> 8)
    Option.some (new_val3, rest)

/-- `to_datetime(usecs_since_epoch)`: the source computes
`seconds_since_epoch = usecs // 10^6` but then feeds the hard-coded
`econds_since_epoch = 1385967984` to `utcfromtimestamp`, adding only
`usecs % 10^6` microseconds.  The returned instant is represented here by
its total microseconds since the Unix epoch. -/
def to_datetime (usecs_since_epoch : Nat) : Nat :=
  1385967984 * 1000000 + usecs_since_epoch % 1000000

/-- `RdbParser.read_length_with_encoding`: the 6/14/32-bit length prefix,
returning `(length, is_encoded)`. -/
def read_length_with_encoding (f : List Nat) : Option ((Nat × Bool) × List Nat) :=
  match read_unsigned_char f with
  | Option.none => Option.none
  | Option.some (b0, rest) =>
    let enc_type := (b0 &&& 0xC0) >>> 6
    if enc_type = 3 then Option.some ((b0 &&& 0x3F, true), rest)
    else if enc_type = 0 then Option.some ((b0 &&& 0x3F, false), rest)
    else if enc_type = 1 then
      match read_unsigned_char rest with
      | Option.none => Option.none
      | Option.some (b1, rest1) =>
        Option.some ((((b0 &&& 0x3F) <<< 8) ||| b1, false), rest1)
    else
      match ntohl rest with
      | Option.none => Option.none
      | Option.some (v, rest1) => Option.some ((v, false), rest1)

/-- `RdbParser.read_length`. -/
def read_length (f : List Nat) : Option (Nat × List Nat) :=
  match read_length_with_encoding f with
  | Option.none => Option.none
  | Option.some ((length, _), rest) => Option.some (length, rest)

/-- Python indexing `out[ref]` on a bytearray with a possibly negative
index: negative indices address from the end; out of range raises. -/
def pyGet (out : List Nat) (ref : Int) : Option Nat :=
  if 0 ≤ ref then out[ref.toNat]?
  else if -(out.length : Int) ≤ ref then out[(((out.length : Int) + ref).toNat)]?
  else Option.none

/-- The back-reference copy loop of `lzf_decompress`: appends `count` bytes
one at a time, each read from index `ref` of the output built so far (the
source region may overlap the freshly appended bytes). -/
def lzfCopyRef (out : List Nat) (ref : Int) : Nat → Option (List Nat)
  | 0 => Option.some out
  | Nat.succ n =>
    match pyGet out ref with
    | Option.none => Option.none
    | Option.some b => lzfCopyRef (out ++ [b]) (ref + 1) n

/-- The main loop of `RdbParser.lzf_decompress` over the compressed input
`C`; `i` is `in_index` and `out` the output built so far (`out_index` in the
source always equals the length of the output).  `fuel` bounds the number of
iterations; every iteration consumes at least one input byte, so the fuel
supplied by `lzf_decompress` below can never run out on inputs the source
terminates on. -/
def lzfLoop (C : List Nat) : Nat → Nat → List Nat → Option (List Nat)
  | 0, _, _ => Option.none
  | Nat.succ fuel, i, out =>
    match C[i]? with
    | Option.none => Option.some out
    | Option.some ctrl =>
      if ctrl < 32 then
        if i + 1 + (ctrl + 1) ≤ C.length then
          lzfLoop C fuel (i + 1 + (ctrl + 1)) (out ++ ((C.drop (i + 1)).take (ctrl + 1)))
        else Option.none
      else
        let step : Option (Nat × Nat) :=
          if ctrl >>> 5 = 7 then
            match C[i + 1]? with
            | Option.none => Option.none
            | Option.some ext => Option.some (7 + ext, i + 2)
          else Option.some (ctrl >>> 5, i + 1)
        match step with
        | Option.none => Option.none
        | Option.some (length, j) =>
          match C[j]? with
          | Option.none => Option.none
          | Option.some b2 =>
            let ref : Int := (out.length : Int) - (((ctrl &&& 0x1f) <<< 8) : Nat) - (b2 : Int) - 1
            match lzfCopyRef out ref (length + 2) with
            | Option.none => Option.none
            | Option.some out2 => lzfLoop C fuel j.succ out2

/-- `RdbParser.lzf_decompress(compressed, expected_length)`; the final
length check models the `LzfLengthMismatch` exception. -/
def lzf_decompress (compressed : List Nat) (expected_length : Nat) : Option (List Nat) :=
  match lzfLoop compressed (compressed.length + 1) 0 [] with
  | Option.none => Option.none
  | Option.some out =>
    if out.length = expected_length then Option.some out else Option.none

/-- `RdbParser.read_string`: raw bytes, INT8/16/32, or LZF.  An encoded
selector outside 0..3 leaves `val = None` and returns it (`RStr.null`). -/
def read_string (f : List Nat) : Option (RStr × List Nat) :=
  match read_length_with_encoding f with
  | Option.none => Option.none
  | Option.some ((length, is_encoded), f1) =>
    if is_encoded then
      if length = 0 then
        match read_signed_char f1 with
        | Option.none => Option.none
        | Option.some (v, rest) => Option.some (RStr.i v, rest)
      else if length = 1 then
        match read_signed_short f1 with
        | Option.none => Option.none
        | Option.some (v, rest) => Option.some (RStr.i v, rest)
      else if length = 2 then
        match read_signed_int f1 with
        | Option.none => Option.none
        | Option.some (v, rest) => Option.some (RStr.i v, rest)
      else if length = 3 then
        match read_length f1 with
        | Option.none => Option.none
        | Option.some (clen, f2) =>
          match read_length f2 with
          | Option.none => Option.none
          | Option.some (l, f3) =>
            match lzf_decompress (f3.take clen) l with
            | Option.none => Option.none
            | Option.some out => Option.some (RStr.bs out, f3.drop clen)
      else Option.some (RStr.null, f1)
    else Option.some (RStr.bs (f1.take length), f1.drop length)

/-- `RdbParser.skip_string`: reads the same length prefix as `read_string`
and advances the stream without materializing; an encoded selector outside
0..3 skips zero bytes. -/
def skip_string (f : List Nat) : Option (List Nat) :=
  match read_length_with_encoding f with
  | Option.none => Option.none
  | Option.some ((length, is_encoded), f1) =>
    if is_encoded then
      if length = 0 then Option.some (skip f1 1)
      else if length = 1 then Option.some (skip f1 2)
      else if length = 2 then Option.some (skip f1 4)
      else if length = 3 then
        match read_length f1 with
        | Option.none => Option.none
        | Option.some (clen, f2) =>
          match read_length f2 with
          | Option.none => Option.none
          | Option.some (_, f3) => Option.some (skip f3 clen)
      else Option.some (skip f1 0)
    else Option.some (skip f1 length)

/-- Iterates `skip_string` the given number of times (the
`for x in xrange(0, skip_strings)` loop of `skip_object`). -/
def skipStrings : Nat → List Nat → Option (List Nat)
  | 0, f => Option.some f
  | Nat.succ n, f =>
    match skip_string f with
    | Option.none => Option.none
    | Option.some f1 => skipStrings n f1

/-- `RdbParser.skip_object`: computes how many length-prefixed strings the
object occupies and skips them; an unknown type tag raises. -/
def skip_object (enc_type : Nat) (f : List Nat) : Option (List Nat) :=
  if enc_type = 0 then skipStrings 1 f
  else if enc_type = 1 then
    match read_length f with
    | Option.none => Option.none
    | Option.some (n, f1) => skipStrings n f1
  else if enc_type = 2 then
    match read_length f with
    | Option.none => Option.none
    | Option.some (n, f1) => skipStrings n f1
  else if enc_type = 3 then
    match read_length f with
    | Option.none => Option.none
    | Option.some (n, f1) => skipStrings (n * 2) f1
  else if enc_type = 4 then
    match read_length f with
    | Option.none => Option.none
    | Option.some (n, f1) => skipStrings (n * 2) f1
  else if enc_type = 9 then skipStrings 1 f
  else if enc_type = 10 then skipStrings 1 f
  else if enc_type = 11 then skipStrings 1 f
  else if enc_type = 12 then skipStrings 1 f
  else if enc_type = 13 then skipStrings 1 f
  else Option.none

/-- `RdbParser.skip_key_and_object`. -/
def skip_key_and_object (data_type : Nat) (f : List Nat) : Option (List Nat) :=
  match skip_string f with
  | Option.none => Option.none
  | Option.some f1 => skip_object data_type f1

/-- `RdbParser.read_ziplist_entry`: previous-entry length (1 or 5 bytes),
then the header byte dispatched on the bit patterns of the source. -/
def read_ziplist_entry (f : List Nat) : Option (RStr × List Nat) :=
  match read_unsigned_char f with
  | Option.none => Option.none
  | Option.some (prev_length, f1) =>
    let after_prev : Option (List Nat) :=
      if prev_length = 254 then
        match read_unsigned_int f1 with
        | Option.none => Option.none
        | Option.some (_, f2) => Option.some f2
      else Option.some f1
    match after_prev with
    | Option.none => Option.none
    | Option.some f2 =>
      match read_unsigned_char f2 with
      | Option.none => Option.none
      | Option.some (entry_header, f3) =>
        if entry_header >>> 6 = 0 then
          let length := entry_header &&& 0x3F
          Option.some (RStr.bs (f3.take length), f3.drop length)
        else if entry_header >>> 6 = 1 then
          match read_unsigned_char f3 with
          | Option.none => Option.none
          | Option.some (b2, f4) =>
            let length := ((entry_header &&& 0x3F) <<< 8) ||| b2
            Option.some (RStr.bs (f4.take length), f4.drop length)
        else if entry_header >>> 6 = 2 then
          match read_big_endian_unsigned_int f3 with
          | Option.none => Option.none
          | Option.some (length, f4) =>
            Option.some (RStr.bs (f4.take length), f4.drop length)
        else if entry_header >>> 4 = 12 then
          match read_signed_short f3 with
          | Option.none => Option.none
          | Option.some (v, f4) => Option.some (RStr.i v, f4)
        else if entry_header >>> 4 = 13 then
          match read_signed_int f3 with
          | Option.none => Option.none
          | Option.some (v, f4) => Option.some (RStr.i v, f4)
        else if entry_header >>> 4 = 14 then
          match read_signed_long f3 with
          | Option.none => Option.none
          | Option.some (v, f4) => Option.some (RStr.i v, f4)
        else if entry_header = 240 then
          match read_24bit_signed_number f3 with
          | Option.none => Option.none
          | Option.some (v, f4) => Option.some (RStr.i v, f4)
        else if entry_header = 254 then
          match read_signed_char f3 with
          | Option.none => Option.none
          | Option.some (v, f4) => Option.some (RStr.i v, f4)
        else if 241 ≤ entry_header ∧ entry_header ≤ 253 then
          Option.some (RStr.i ((entry_header : Int) - 241), f3)
        else Option.none

/-- The `rpush` loop of `read_ziplist`: `n` ziplist entries. -/
def ziplistEntries (key : RStr) : Nat → List Nat → Option (List Event × List Nat)
  | 0, buff => Option.some ([], buff)
  | Nat.succ n, buff =>
    match read_ziplist_entry buff with
    | Option.none => Option.none
    | Option.some (v, buff1) =>
      match ziplistEntries key n buff1 with
      | Option.none => Option.none
      | Option.some (evs, buff2) => Option.some (Event.rpush key v :: evs, buff2)

/-- The member/score pair loop of `read_zset_from_ziplist`. -/
def ziplistZsetPairs (key : RStr) : Nat → List Nat → Option (List Event × List Nat)
  | 0, buff => Option.some ([], buff)
  | Nat.succ n, buff =>
    match read_ziplist_entry buff with
    | Option.none => Option.none
    | Option.some (member, buff1) =>
      match read_ziplist_entry buff1 with
      | Option.none => Option.none
      | Option.some (score, buff2) =>
        match ziplistZsetPairs key n buff2 with
        | Option.none => Option.none
        | Option.some (evs, buff3) =>
          Option.some (Event.zadd key score member :: evs, buff3)

/-- The field/value pair loop of `read_hash_from_ziplist`. -/
def ziplistHashPairs (key : RStr) : Nat → List Nat → Option (List Event × List Nat)
  | 0, buff => Option.some ([], buff)
  | Nat.succ n, buff =>
    match read_ziplist_entry buff with
    | Option.none => Option.none
    | Option.some (field, buff1) =>
      match read_ziplist_entry buff1 with
      | Option.none => Option.none
      | Option.some (value, buff2) =>
        match ziplistHashPairs key n buff2 with
        | Option.none => Option.none
        | Option.some (evs, buff3) =>
          Option.some (Event.hset key field value :: evs, buff3)

/-- The element loop of `read_intset`: `encoding`-wide unsigned reads. -/
def intsetEntries (key : RStr) (encoding : Nat) : Nat → List Nat → Option (List Event × List Nat)
  | 0, buff => Option.some ([], buff)
  | Nat.succ n, buff =>
    let entry : Option (Nat × List Nat) :=
      if encoding = 8 then read_unsigned_long buff
      else if encoding = 4 then read_unsigned_int buff
      else if encoding = 2 then read_unsigned_short buff
      else Option.none
    match entry with
    | Option.none => Option.none
    | Option.some (v, buff1) =>
      match intsetEntries key encoding n buff1 with
      | Option.none => Option.none
      | Option.some (evs, buff2) => Option.some (Event.sadd key (RStr.i v) :: evs, buff2)

/-- `RdbParser.read_zipmap_next_length`: a byte below 254 is the length,
254 means a 4-byte length follows, 255 is the terminator (inner `none`). -/
def read_zipmap_next_length (f : List Nat) : Option (Option Nat × List Nat) :=
  match read_unsigned_char f with
  | Option.none => Option.none
  | Option.some (num, f1) =>
    if num < 254 then Option.some (Option.some num, f1)
    else if num = 254 then
      match read_unsigned_int f1 with
      | Option.none => Option.none
      | Option.some (v, f2) => Option.some (Option.some v, f2)
    else Option.some (Option.none, f1)

/-- The entry loop of `read_zipmap`: runs until the terminator appears in
the key-length slot; a terminator in the value-length slot raises.  `fuel`
bounds the iteration count; every iteration consumes at least one byte of
the buffer, so the fuel supplied by `read_zipmap` never runs out on inputs
the source terminates on.  The value is delivered raw (the opportunistic `int(value)` is not modelled). -/
def zipmapEntries (key : RStr) : Nat → List Nat → Option (List Event × List Nat)
  | 0, _ => Option.none
  | Nat.succ fuel, buff =>
    match read_zipmap_next_length buff with
    | Option.none => Option.none
    | Option.some (Option.none, buff1) => Option.some ([], buff1)
    | Option.some (Option.some klen, buff1) =>
      let kbytes := buff1.take klen
      let buff2 := buff1.drop klen
      match read_zipmap_next_length buff2 with
      | Option.none => Option.none
      | Option.some (Option.none, _) => Option.none
      | Option.some (Option.some vlen, buff3) =>
        match read_unsigned_char buff3 with
        | Option.none => Option.none
        | Option.some (free, buff4) =>
          let value := buff4.take vlen
          let buff5 := skip (buff4.drop vlen) free
          match zipmapEntries key fuel buff5 with
          | Option.none => Option.none
          | Option.some (evs, buff6) =>
            Option.some (Event.hset key (RStr.bs kbytes) (RStr.bs value) :: evs, buff6)

/-- `RdbParser.read_intset` applied to the already-read blob: `StringIO`
parsing of encoding width, count and elements.  A non-bytes blob makes the
source fail as well (see `read_object`). -/
def read_intset_inner (key : RStr) (expiry : Option Nat) (blob : List Nat) :
    Option (List Event) :=
  match read_unsigned_int blob with
  | Option.none => Option.none
  | Option.some (encoding, b1) =>
    match read_unsigned_int b1 with
    | Option.none => Option.none
    | Option.some (num_entries, b2) =>
      match intsetEntries key encoding num_entries b2 with
      | Option.none => Option.none
      | Option.some (evs, _) =>
        Option.some (Event.start_set key num_entries expiry :: evs ++ [Event.end_set key])

/-- `RdbParser.read_ziplist` applied to the blob: header, `zllen` entries,
then the mandatory 255 terminator. -/
def read_ziplist_inner (key : RStr) (expiry : Option Nat) (blob : List Nat) :
    Option (List Event) :=
  match read_unsigned_int blob with
  | Option.none => Option.none
  | Option.some (_, b1) =>
    match read_unsigned_int b1 with
    | Option.none => Option.none
    | Option.some (_, b2) =>
      match read_unsigned_short b2 with
      | Option.none => Option.none
      | Option.some (num_entries, b3) =>
        match ziplistEntries key num_entries b3 with
        | Option.none => Option.none
        | Option.some (evs, b4) =>
          match read_unsigned_char b4 with
          | Option.none => Option.none
          | Option.some (zlist_end, _) =>
            if zlist_end = 255 then
              Option.some (Event.start_list key num_entries expiry :: evs ++ [Event.end_list key])
            else Option.none

/-- `RdbParser.read_zset_from_ziplist` applied to the blob: requires an even
entry count, halves it, then member/score pairs and the 255 terminator. -/
def read_zset_from_ziplist_inner (key : RStr) (expiry : Option Nat) (blob : List Nat) :
    Option (List Event) :=
  match read_unsigned_int blob with
  | Option.none => Option.none
  | Option.some (_, b1) =>
    match read_unsigned_int b1 with
    | Option.none => Option.none
    | Option.some (_, b2) =>
      match read_unsigned_short b2 with
      | Option.none => Option.none
      | Option.some (num_entries, b3) =>
        if num_entries % 2 = 1 then Option.none
        else
          match ziplistZsetPairs key (num_entries / 2) b3 with
          | Option.none => Option.none
          | Option.some (evs, b4) =>
            match read_unsigned_char b4 with
            | Option.none => Option.none
            | Option.some (zlist_end, _) =>
              if zlist_end = 255 then
                Option.some (Event.start_sorted_set key (num_entries / 2) expiry :: evs ++
                  [Event.end_sorted_set key])
              else Option.none

/-- `RdbParser.read_hash_from_ziplist` applied to the blob. -/
def read_hash_from_ziplist_inner (key : RStr) (expiry : Option Nat) (blob : List Nat) :
    Option (List Event) :=
  match read_unsigned_int blob with
  | Option.none => Option.none
  | Option.some (_, b1) =>
    match read_unsigned_int b1 with
    | Option.none => Option.none
    | Option.some (_, b2) =>
      match read_unsigned_short b2 with
      | Option.none => Option.none
      | Option.some (num_entries, b3) =>
        if num_entries % 2 = 1 then Option.none
        else
          match ziplistHashPairs key (num_entries / 2) b3 with
          | Option.none => Option.none
          | Option.some (evs, b4) =>
            match read_unsigned_char b4 with
            | Option.none => Option.none
            | Option.some (zlist_end, _) =>
              if zlist_end = 255 then
                Option.some (Event.start_hash key (num_entries / 2) expiry :: evs ++
                  [Event.end_hash key])
              else Option.none

/-- `RdbParser.read_zipmap` applied to the blob: the declared entry count is
one byte, announced in `start_hash` but not enforced by the entry loop. -/
def read_zipmap_inner (key : RStr) (expiry : Option Nat) (blob : List Nat) :
    Option (List Event) :=
  match read_unsigned_char blob with
  | Option.none => Option.none
  | Option.some (num_entries, b1) =>
    match zipmapEntries key (b1.length + 1) b1 with
    | Option.none => Option.none
    | Option.some (evs, _) =>
      Option.some (Event.start_hash key num_entries expiry :: evs ++ [Event.end_hash key])

/-- The string-element loop shared by the LIST and SET decoders. -/
def stringElems (mk : RStr → Event) : Nat → List Nat → Option (List Event × List Nat)
  | 0, f => Option.some ([], f)
  | Nat.succ n, f =>
    match read_string f with
    | Option.none => Option.none
    | Option.some (v, f1) =>
      match stringElems mk n f1 with
      | Option.none => Option.none
      | Option.some (evs, f2) => Option.some (mk v :: evs, f2)

/-- The element loop of the plain ZSET decoder: member string, one length
byte, then that many raw score bytes (`float(score)` not modelled). -/
def zsetElems (key : RStr) : Nat → List Nat → Option (List Event × List Nat)
  | 0, f => Option.some ([], f)
  | Nat.succ n, f =>
    match read_string f with
    | Option.none => Option.none
    | Option.some (member, f1) =>
      match read_unsigned_char f1 with
      | Option.none => Option.none
      | Option.some (dbl_length, f2) =>
        let score := f2.take dbl_length
        match zsetElems key n (f2.drop dbl_length) with
        | Option.none => Option.none
        | Option.some (evs, f3) =>
          Option.some (Event.zadd key (RStr.bs score) member :: evs, f3)

/-- The field/value loop of the plain HASH decoder. -/
def hashElems (key : RStr) : Nat → List Nat → Option (List Event × List Nat)
  | 0, f => Option.some ([], f)
  | Nat.succ n, f =>
    match read_string f with
    | Option.none => Option.none
    | Option.some (field, f1) =>
      match read_string f1 with
      | Option.none => Option.none
      | Option.some (value, f2) =>
        match hashElems key n f2 with
        | Option.none => Option.none
        | Option.some (evs, f3) => Option.some (Event.hset key field value :: evs, f3)

/-- Reads a blob via `read_string` and hands it to an inner decoder that
parses it from a fresh buffer (`StringIO`/`BytesIO` in the source).  A blob
that is not a byte string makes the source abort too: the zero-filled
`bytearray(int)` zipmap never meets its terminator and runs out of buffer,
and `StringIO` over a non-string raises when read. -/
def readBlobObject (inner : List Nat → Option (List Event)) (f : List Nat) :
    Option (List Event × List Nat) :=
  match read_string f with
  | Option.none => Option.none
  | Option.some (RStr.bs blob, rest) =>
    match inner blob with
    | Option.none => Option.none
    | Option.some evs => Option.some (evs, rest)
  | Option.some (RStr.i _, _) => Option.none
  | Option.some (RStr.null, _) => Option.none

/-- `RdbParser.read_object`: dispatch on the type tag, producing the event
trace of the record and the remaining stream; an unknown tag raises. -/
def read_object (key : RStr) (expiry : Option Nat) (enc_type : Nat) (f : List Nat) :
    Option (List Event × List Nat) :=
  if enc_type = 0 then
    match read_string f with
    | Option.none => Option.none
    | Option.some (val, rest) => Option.some ([Event.set key val expiry], rest)
  else if enc_type = 1 then
    match read_length f with
    | Option.none => Option.none
    | Option.some (length, f1) =>
      match stringElems (Event.rpush key) length f1 with
      | Option.none => Option.none
      | Option.some (evs, rest) =>
        Option.some (Event.start_list key length expiry :: evs ++ [Event.end_list key], rest)
  else if enc_type = 2 then
    match read_length f with
    | Option.none => Option.none
    | Option.some (length, f1) =>
      match stringElems (Event.sadd key) length f1 with
      | Option.none => Option.none
      | Option.some (evs, rest) =>
        Option.some (Event.start_set key length expiry :: evs ++ [Event.end_set key], rest)
  else if enc_type = 3 then
    match read_length f with
    | Option.none => Option.none
    | Option.some (length, f1) =>
      match zsetElems key length f1 with
      | Option.none => Option.none
      | Option.some (evs, rest) =>
        Option.some (Event.start_sorted_set key length expiry :: evs ++
          [Event.end_sorted_set key], rest)
  else if enc_type = 4 then
    match read_length f with
    | Option.none => Option.none
    | Option.some (length, f1) =>
      match hashElems key length f1 with
      | Option.none => Option.none
      | Option.some (evs, rest) =>
        Option.some (Event.start_hash key length expiry :: evs ++ [Event.end_hash key], rest)
  else if enc_type = 9 then readBlobObject (read_zipmap_inner key expiry) f
  else if enc_type = 10 then readBlobObject (read_ziplist_inner key expiry) f
  else if enc_type = 11 then readBlobObject (read_intset_inner key expiry) f
  else if enc_type = 12 then readBlobObject (read_zset_from_ziplist_inner key expiry) f
  else if enc_type = 13 then readBlobObject (read_hash_from_ziplist_inner key expiry) f
  else Option.none

/-- The compiled filter state built by `init_filter`: `dbs` is `none` when
absent (an int becomes a one-element list, mirroring the tuple), `keyMatch`
abstracts the compiled regular expression applied to `str(key)` (the
default `.*` is `fun _ => true`), and `types` is the list of allowed
logical type names. -/
structure Filters where
  dbs : Option (List Nat)
  keyMatch : RStr → Bool
  types : List String

/-- The filter state `init_filter` builds when `filters` is `None`. -/
def defaultFilters : Filters :=
  { dbs := Option.none
    keyMatch := fun _ => true
    types := ["set", "hash", "sortedset", "string", "list"] }

/-- Python truthiness of the key passed to `matches_filter`: `b""` and the
integer `0` are falsy, as is `None`. -/
def rstrTruthy : RStr → Bool
  | RStr.bs l => !l.isEmpty
  | RStr.i n => n ≠ 0
  | RStr.null => false

/-- `DATA_TYPE_MAPPING` as a lookup; `get_logical_type` raises `KeyError`
on any other tag (`Option.none`). -/
def get_logical_type (data_type : Nat) : Option String :=
  if data_type = 0 then Option.some "string"
  else if data_type = 1 then Option.some "list"
  else if data_type = 2 then Option.some "set"
  else if data_type = 3 then Option.some "sortedset"
  else if data_type = 4 then Option.some "hash"
  else if data_type = 9 then Option.some "hash"
  else if data_type = 10 then Option.some "list"
  else if data_type = 11 then Option.some "set"
  else if data_type = 12 then Option.some "sortedset"
  else if data_type = 13 then Option.some "hash"
  else Option.none

/-- `RdbParser.matches_filter`: the `dbs` clause only fires when the stored
value is truthy (a non-empty list), the key clause only when the key is
truthy, and the type clause looks the logical type up (raising on unknown
tags, hence `Option`). -/
def matches_filter (flt : Filters) (db_number : Nat) (key : Option RStr)
    (data_type : Option Nat) : Option Bool :=
  if (match flt.dbs with
      | Option.some l => !l.isEmpty && !l.contains db_number
      | Option.none => false) then Option.some false
  else if (match key with
      | Option.some k => rstrTruthy k && !flt.keyMatch k
      | Option.none => false) then Option.some false
  else
    match data_type with
    | Option.none => Option.some true
    | Option.some t =>
      match get_logical_type t with
      | Option.none => Option.none
      | Option.some lt => Option.some (flt.types.contains lt)

/-- The per-record dispatch of `RdbParser.parse` (lines 409-416): first the
database-only filter call, then — after the key is read — the full call
deciding between `read_object` and `skip_object`.  Returns whether the
record is decoded rather than skipped. -/
def record_decoded (flt : Filters) (db_number : Nat) (key : RStr) (data_type : Nat) :
    Option Bool :=
  match matches_filter flt db_number Option.none Option.none with
  | Option.none => Option.none
  | Option.some false => Option.some false
  | Option.some true => matches_filter flt db_number (Option.some key) (Option.some data_type)

/-- The opcode loop of `RdbParser.parse`.  Each iteration resets the
pending expiry, reads an opcode (absorbing an expiry opcode and re-reading),
and handles SELECTDB, EOF or a data record.  `fuel` bounds the number of
iterations; every iteration consumes at least one byte. -/
def parseBody (flt : Filters) : Nat → List Nat → Bool → Nat → Option (List Event)
  | 0, _, _, _ => Option.none
  | Nat.succ fuel, f, is_first_database, db_number =>
    match read_unsigned_char f with
    | Option.none => Option.none
    | Option.some (b0, f1) =>
      let withExpiry : Option ((Option Nat × Nat) × List Nat) :=
        if b0 = 252 then
          match read_unsigned_long f1 with
          | Option.none => Option.none
          | Option.some (ms, f2) =>
            match read_unsigned_char f2 with
            | Option.none => Option.none
            | Option.some (dt, f3) =>
              Option.some ((Option.some (to_datetime (ms * 1000)), dt), f3)
        else if b0 = 253 then
          match read_unsigned_int f1 with
          | Option.none => Option.none
          | Option.some (secs, f2) =>
            match read_unsigned_char f2 with
            | Option.none => Option.none
            | Option.some (dt, f3) =>
              Option.some ((Option.some (to_datetime (secs * 1000000)), dt), f3)
        else Option.some ((Option.none, b0), f1)
      match withExpiry with
      | Option.none => Option.none
      | Option.some ((expiry, data_type), f2) =>
        if data_type = 254 then
          match read_length f2 with
          | Option.none => Option.none
          | Option.some (new_db, f3) =>
            let pre := if is_first_database then [Event.start_database new_db]
              else [Event.end_database db_number, Event.start_database new_db]
            match parseBody flt fuel f3 false new_db with
            | Option.none => Option.none
            | Option.some evs => Option.some (pre ++ evs)
        else if data_type = 255 then
          Option.some [Event.end_database db_number, Event.end_rdb]
        else
          match matches_filter flt db_number Option.none Option.none with
          | Option.none => Option.none
          | Option.some true =>
            match read_string f2 with
            | Option.none => Option.none
            | Option.some (key, f3) =>
              match matches_filter flt db_number (Option.some key) (Option.some data_type) with
              | Option.none => Option.none
              | Option.some true =>
                match read_object key expiry data_type f3 with
                | Option.none => Option.none
                | Option.some (evs, f4) =>
                  match parseBody flt fuel f4 is_first_database db_number with
                  | Option.none => Option.none
                  | Option.some evs1 => Option.some (evs ++ evs1)
              | Option.some false =>
                match skip_object data_type f3 with
                | Option.none => Option.none
                | Option.some f4 => parseBody flt fuel f4 is_first_database db_number
          | Option.some false =>
            match skip_key_and_object data_type f2 with
            | Option.none => Option.none
            | Option.some f3 => parseBody flt fuel f3 is_first_database db_number

/-- Decimal digit accumulator for the version header. -/
def digitsVal : List Nat → Nat → Option Nat
  | [], acc => Option.some acc
  | d :: rest, acc =>
    if 48 ≤ d ∧ d ≤ 57 then digitsVal rest (acc * 10 + (d - 48)) else Option.none

/-- `int(version_str)` on the ASCII digits of the header; the empty string
and non-digit bytes raise `ValueError` (surrounding whitespace and an
explicit sign, which `int` would also accept, are not modelled). -/
def parseVersionDigits (ds : List Nat) : Option Nat :=
  if ds.isEmpty then Option.none else digitsVal ds 0

/-- `RdbParser.parse`: magic check, version check, `start_rdb`, then the
opcode loop starting at database 0. -/
def parse (flt : Filters) (f : List Nat) : Option (List Event) :=
  if f.take 5 = [82, 69, 68, 73, 83] then
    match parseVersionDigits ((f.drop 5).take 4) with
    | Option.none => Option.none
    | Option.some v =>
      if 1 ≤ v ∧ v ≤ 6 then
        match parseBody flt ((f.drop 9).length + 1) (f.drop 9) true 0 with
        | Option.none => Option.none
        | Option.some evs => Option.some (Event.start_rdb :: evs)
      else Option.none
  else Option.none

/-- Is this one of the per-element callbacks (`rpush`/`sadd`/`hset`/`zadd`)? -/
def isElemCallback : Event → Bool
  | Event.rpush _ _ => true
  | Event.sadd _ _ => true
  | Event.hset _ _ _ => true
  | Event.zadd _ _ _ => true
  | _ => false

/-- Number of per-element callbacks in a trace. -/
def elemCount (evs : List Event) : Nat := evs.countP isElemCallback

/-- The length announced by the `start_X` event opening a record trace. -/
def announced : List Event → Option Nat
  | Event.start_list _ n _ :: _ => Option.some n
  | Event.start_set _ n _ :: _ => Option.some n
  | Event.start_hash _ n _ :: _ => Option.some n
  | Event.start_sorted_set _ n _ :: _ => Option.some n
  | _ => Option.none

/-- Checks, along the decode path of a plain sorted set, that every score
length byte is below 64 (so that its 2-bit tag is `00` and the skip path
reads it back as the same length). -/
def zsetScoresShortLoop : Nat → List Nat → Bool
  | 0, _ => true
  | Nat.succ n, f =>
    match read_string f with
    | Option.none => false
    | Option.some (_, f1) =>
      match read_unsigned_char f1 with
      | Option.none => false
      | Option.some (dbl_length, f2) =>
        decide (dbl_length < 64) && zsetScoresShortLoop n (f2.drop dbl_length)

/-- `zsetScoresShortLoop` started from the element count prefix. -/
def zsetScoresShort (f : List Nat) : Bool :=
  match read_length f with
  | Option.none => false
  | Option.some (n, f1) => zsetScoresShortLoop n f1

/-- Lookup used by the LZF algorithm as the specification words it: `ref`
is an offset into the output built so far, and a reference before the start
of the output is invalid. -/
def refGet (out : List Nat) (ref : Int) : Option Nat :=
  if 0 ≤ ref then out[ref.toNat]? else Option.none

/-- Back-reference copy as specified: `count` bytes copied byte-by-byte
from `output[ref..]`, appending as it goes so the regions may overlap. -/
def lzfSpecCopy (out : List Nat) (ref : Int) : Nat → Option (List Nat)
  | 0 => Option.some out
  | Nat.succ n =>
    match refGet out ref with
    | Option.none => Option.none
    | Option.some b => lzfSpecCopy (out ++ [b]) (ref + 1) n

/-- The LZF walk as the specification states it: a control byte below 32
copies `ctrl + 1` literal bytes; otherwise the back-reference length is
`ctrl >>> 5` (plus an extension byte when that is 7) and `L + 2` bytes are
copied from offset `o - ((ctrl &&& 0x1F) <<< 8) - b2 - 1` of the output. -/
def lzfSpecLoop (C : List Nat) : Nat → Nat → List Nat → Option (List Nat)
  | 0, _, _ => Option.none
  | Nat.succ fuel, i, out =>
    match C[i]? with
    | Option.none => Option.some out
    | Option.some ctrl =>
      if ctrl < 32 then
        if i + 1 + (ctrl + 1) ≤ C.length then
          lzfSpecLoop C fuel (i + 1 + (ctrl + 1)) (out ++ ((C.drop (i + 1)).take (ctrl + 1)))
        else Option.none
      else
        let step : Option (Nat × Nat) :=
          if ctrl >>> 5 = 7 then
            match C[i + 1]? with
            | Option.none => Option.none
            | Option.some ext => Option.some (7 + ext, i + 2)
          else Option.some (ctrl >>> 5, i + 1)
        match step with
        | Option.none => Option.none
        | Option.some (length, j) =>
          match C[j]? with
          | Option.none => Option.none
          | Option.some b2 =>
            let ref : Int := (out.length : Int) - (((ctrl &&& 0x1f) <<< 8) : Nat) - (b2 : Int) - 1
            match lzfSpecCopy out ref (length + 2) with
            | Option.none => Option.none
            | Option.some out2 => lzfSpecLoop C fuel j.succ out2

/-- LZF decompression as specified: run the walk, then require the output
length to equal the declared expected length. -/
def lzf_decompress_spec (compressed : List Nat) (expected_length : Nat) : Option (List Nat) :=
  match lzfSpecLoop compressed (compressed.length + 1) 0 [] with
  | Option.none => Option.none
  | Option.some out =>
    if out.length = expected_length then Option.some out else Option.none

/-- Is the database allowed by the filter?  (`None` or an empty list means
no filtering on that axis.) -/
def dbAllowed (flt : Filters) (db_number : Nat) : Bool :=
  match flt.dbs with
  | Option.none => true
  | Option.some l => l.isEmpty || l.contains db_number

/-- Is the logical type of the record among the allowed type names? -/
def typeAllowed (flt : Filters) (data_type : Nat) : Bool :=
  match get_logical_type data_type with
  | Option.none => false
  | Option.some lt => flt.types.contains lt

set_option maxRecDepth 100000

/-- C3 counterexample: on input byte 0xC4 (tag 11, selector 4) `read_string`
does not fail as the claim states: it succeeds and returns Python `None`. -/
theorem C3_counterexample :
    read_string [196] = Option.some (RStr.null, []) ∧ read_string [196] ≠ Option.none := by
  constructor
  · decide
  · decide

/-- C3 (amended): for every string read whose length prefix has tag 11 and
whose 6-bit selector is none of 0 (INT8), 1 (INT16), 2 (INT32) or 3 (LZF),
the string codec does not raise `MalformedString`: it succeeds, returning
Python `None` and consuming only the prefix byte. -/
theorem C3_amended (b : Nat) (rest : List Nat) (h3 : b >>> 6 = 3) (h4 : 4 ≤ b &&& 63) :
    read_string (b :: rest) = Option.some (RStr.null, rest) := by
  have hb : 192 ≤ b ∧ b < 256 := by omega
  have henc : (b &&& 0xC0) >>> 6 = 3 := by
    have : ∀ c, c < 256 → 192 ≤ c → (c &&& 0xC0) >>> 6 = 3 := by decide
    exact this b hb.2 hb.1
  have hne0 : ¬ (b &&& 63 = 0) := by omega
  have hne1 : ¬ (b &&& 63 = 1) := by omega
  have hne2 : ¬ (b &&& 63 = 2) := by omega
  have hne3 : ¬ (b &&& 63 = 3) := by omega
  simp [read_string, read_length_with_encoding, read_unsigned_char, henc, hne0, hne1, hne2, hne3]

/-- C3 witness: `C3_amended` applied at the concrete byte 0xFA. -/
theorem C3_witness :
    (250 >>> 6 = 3 ∧ 4 ≤ 250 &&& 63) ∧
      read_string [250, 1, 2] = Option.some (RStr.null, [1, 2]) :=
  ⟨by decide, C3_amended 250 [1, 2] (by decide) (by decide)⟩

/-- C4 counterexample: header byte 0xC1 is not rejected with
`BadZiplistEntry` as the claim states: it decodes a signed 16-bit integer. -/
theorem C4_counterexample :
    read_ziplist_entry [0, 193, 5, 0] = Option.some (RStr.i 5, []) ∧
      read_ziplist_entry [0, 193, 5, 0] ≠ Option.none := by
  constructor
  · decide
  · decide

/-- C4 (amended): the ziplist entry decoder dispatches the integer headers
on the top nibble: every header 0xC0-0xCF yields a signed 16-bit read, every
0xD0-0xDF a signed 32-bit read, every 0xE0-0xEF a signed 64-bit read;
header 0xF0 is the 24-bit signed read, 0xFE the signed 8-bit read, and
0xF1-0xFD the immediate values 0..12; the only header byte that fails with
`BadZiplistEntry` is 0xFF. -/
theorem C4_amended :
    (∀ h b0 b1 rest, h >>> 4 = 12 →
      read_ziplist_entry (0 :: h :: b0 :: b1 :: rest) =
        Option.some (RStr.i (if b0 + 256 * b1 < 32768 then (b0 + 256 * b1 : Int)
          else (b0 + 256 * b1 : Int) - 65536), rest)) ∧
    (∀ h b0 b1 b2 b3 rest, h >>> 4 = 13 →
      read_ziplist_entry (0 :: h :: b0 :: b1 :: b2 :: b3 :: rest) =
        Option.some (RStr.i
          (if b0 + 256 * b1 + 65536 * b2 + 16777216 * b3 < 2147483648 then
            (b0 + 256 * b1 + 65536 * b2 + 16777216 * b3 : Int)
          else (b0 + 256 * b1 + 65536 * b2 + 16777216 * b3 : Int) - 4294967296), rest)) ∧
    (∀ h b0 b1 b2 b3 b4 b5 b6 b7 rest, h >>> 4 = 14 →
      read_ziplist_entry (0 :: h :: b0 :: b1 :: b2 :: b3 :: b4 :: b5 :: b6 :: b7 :: rest) =
        (read_signed_long (b0 :: b1 :: b2 :: b3 :: b4 :: b5 :: b6 :: b7 :: rest)).map
          (fun p => (RStr.i p.1, p.2))) ∧
    (∀ b0 b1 b2 rest, read_ziplist_entry (0 :: 240 :: b0 :: b1 :: b2 :: rest) =
      Option.some (RStr.i (if b0 + 256 * b1 + 65536 * b2 < 8388608 then
          (b0 + 256 * b1 + 65536 * b2 : Int)
        else (b0 + 256 * b1 + 65536 * b2 : Int) - 16777216), rest)) ∧
    (∀ b0 rest, read_ziplist_entry (0 :: 254 :: b0 :: rest) =
      Option.some (RStr.i (if b0 < 128 then (b0 : Int) else (b0 : Int) - 256), rest)) ∧
    (∀ h rest, 241 ≤ h → h ≤ 253 →
      read_ziplist_entry (0 :: h :: rest) =
        Option.some (RStr.i ((h : Int) - 241), rest)) ∧
    (∀ rest, read_ziplist_entry (0 :: 255 :: rest) = Option.none) ∧
    (∀ h b0 b1 b2 b3 b4 b5 b6 b7 rest, h < 255 →
      read_ziplist_entry (0 :: h :: b0 :: b1 :: b2 :: b3 :: b4 :: b5 :: b6 :: b7 :: rest) ≠
        Option.none) := by
  refine ⟨?_, ?_, ?_, ?_, ?_, ?_, ?_, ?_⟩
  · intro h b0 b1 rest h12
    have hne0 : ¬ (h >>> 6 = 0) := by omega
    have hne1 : ¬ (h >>> 6 = 1) := by omega
    have hne2 : ¬ (h >>> 6 = 2) := by omega
    simp [read_ziplist_entry, read_unsigned_char, read_signed_short, read_unsigned_short,
      hne0, hne1, hne2, h12]
  · intro h b0 b1 b2 b3 rest h13
    have hne0 : ¬ (h >>> 6 = 0) := by omega
    have hne1 : ¬ (h >>> 6 = 1) := by omega
    have hne2 : ¬ (h >>> 6 = 2) := by omega
    have hne12 : ¬ (h >>> 4 = 12) := by omega
    simp [read_ziplist_entry, read_unsigned_char, read_signed_int, read_unsigned_int,
      hne0, hne1, hne2, hne12, h13]
  · intro h b0 b1 b2 b3 b4 b5 b6 b7 rest h14
    have hne0 : ¬ (h >>> 6 = 0) := by omega
    have hne1 : ¬ (h >>> 6 = 1) := by omega
    have hne2 : ¬ (h >>> 6 = 2) := by omega
    have hne12 : ¬ (h >>> 4 = 12) := by omega
    have hne13 : ¬ (h >>> 4 = 13) := by omega
    simp [read_ziplist_entry, read_unsigned_char, read_signed_long, read_unsigned_long,
      hne0, hne1, hne2, hne12, hne13, h14]
  · intro b0 b1 b2 rest
    simp [read_ziplist_entry, read_unsigned_char, read_24bit_signed_number]
  · intro b0 rest
    simp [read_ziplist_entry, read_unsigned_char, read_signed_char]
  · intro h rest h241 h253
    have hne0 : ¬ (h >>> 6 = 0) := by omega
    have hne1 : ¬ (h >>> 6 = 1) := by omega
    have hne2 : ¬ (h >>> 6 = 2) := by omega
    have hne12 : ¬ (h >>> 4 = 12) := by omega
    have hne13 : ¬ (h >>> 4 = 13) := by omega
    have hne14 : ¬ (h >>> 4 = 14) := by omega
    have hne240 : ¬ (h = 240) := by omega
    have hne254 : ¬ (h = 254) := by omega
    simp [read_ziplist_entry, read_unsigned_char, hne0, hne1, hne2, hne12, hne13, hne14,
      hne240, hne254, h241, h253]
  · intro rest
    simp [read_ziplist_entry, read_unsigned_char]
  · intro h b0 b1 b2 b3 b4 b5 b6 b7 rest hlt
    by_cases ht0 : h >>> 6 = 0
    · simp [read_ziplist_entry, read_unsigned_char, ht0]
    by_cases ht1 : h >>> 6 = 1
    · simp [read_ziplist_entry, read_unsigned_char, ht0, ht1]
    by_cases ht2 : h >>> 6 = 2
    · simp [read_ziplist_entry, read_unsigned_char, read_big_endian_unsigned_int,
        ht0, ht1, ht2]
    by_cases h12 : h >>> 4 = 12
    · simp [read_ziplist_entry, read_unsigned_char, read_signed_short, read_unsigned_short,
        ht0, ht1, ht2, h12]
    by_cases h13 : h >>> 4 = 13
    · simp [read_ziplist_entry, read_unsigned_char, read_signed_int, read_unsigned_int,
        ht0, ht1, ht2, h12, h13]
    by_cases h14 : h >>> 4 = 14
    · simp [read_ziplist_entry, read_unsigned_char, read_signed_long, read_unsigned_long,
        ht0, ht1, ht2, h12, h13, h14]
    by_cases h240 : h = 240
    · subst h240
      simp [read_ziplist_entry, read_unsigned_char, read_24bit_signed_number]
    by_cases h254 : h = 254
    · subst h254
      simp [read_ziplist_entry, read_unsigned_char, read_signed_char]
    by_cases himm : 241 ≤ h ∧ h ≤ 253
    · simp [read_ziplist_entry, read_unsigned_char, ht0, ht1, ht2, h12, h13, h14,
        h240, h254, himm.1, himm.2]
    · exfalso
      omega

/-- C4 witness: `C4_amended` applied at the concrete header 0xC5. -/
theorem C4_witness :
    (197 >>> 4 = 12) ∧ read_ziplist_entry [0, 197, 7, 0] = Option.some (RStr.i 7, []) := by
  refine ⟨by decide, ?_⟩
  have h := C4_amended.1 197 7 0 [] (by decide)
  simpa using h

/-- C2: evaluation of the code at the failing input.  For a record with
expiry opcode 252 and timestamp 1 ms, the `set` callback receives the
expiry 1385967984001000 microseconds (the hard-coded base of `to_datetime`
plus the sub-second part), not the 1000 microseconds the claim states. -/
theorem C2_code_eval :
    parse defaultFilters
        [82, 69, 68, 73, 83, 48, 48, 48, 54, 252, 1, 0, 0, 0, 0, 0, 0, 0, 0,
          1, 107, 1, 118, 255] =
      Option.some [Event.start_rdb,
        Event.set (RStr.bs [107]) (RStr.bs [118]) (Option.some 1385967984001000),
        Event.end_database 0, Event.end_rdb] ∧
      (1385967984001000 : Nat) ≠ 1 * 1000 := by
  constructor
  · decide
  · decide

/-- C10: with any configured key regular expression, a record whose key is
the empty string passes the key clause of `matches_filter` without the
regex being consulted (the filter holds for every `keyMatch`, including one
that matches nothing), and the record is decoded whenever its database and
logical type are allowed. -/
theorem C10_theorem (flt : Filters) (db_number data_type : Nat) (lt : String)
    (hlt : get_logical_type data_type = Option.some lt)
    (hty : flt.types.contains lt = true)
    (hdb : dbAllowed flt db_number = true) :
    record_decoded flt db_number (RStr.bs []) data_type = Option.some true := by
  have hty2 : lt ∈ flt.types := by simpa using hty
  cases hl : flt.dbs with
  | none => simp [record_decoded, matches_filter, hl, rstrTruthy, hlt, hty2]
  | some l =>
    have h := hdb
    simp [dbAllowed, hl] at h
    rcases h with h | h <;>
      simp [record_decoded, matches_filter, hl, rstrTruthy, hlt, hty2, h]

/-- C10 witness: `C10_theorem` applied to a filter whose regex matches
nothing. -/
theorem C10_witness :
    (get_logical_type 0 = Option.some "string" ∧
      (Filters.mk (Option.some [0]) (fun _ => false) ["string"]).types.contains "string" = true ∧
      dbAllowed (Filters.mk (Option.some [0]) (fun _ => false) ["string"]) 0 = true) ∧
    record_decoded (Filters.mk (Option.some [0]) (fun _ => false) ["string"]) 0
      (RStr.bs []) 0 = Option.some true :=
  ⟨⟨by decide, by decide, by decide⟩,
    C10_theorem (Filters.mk (Option.some [0]) (fun _ => false) ["string"]) 0 0 "string"
      (by decide) (by decide) (by decide)⟩

/-- C8 counterexample: with a regex that matches nothing, a record with an
empty key is still decoded, so "decoded iff the key matches the regex"
fails as stated. -/
theorem C8_counterexample :
    record_decoded (Filters.mk Option.none (fun _ => false)
        ["set", "hash", "sortedset", "string", "list"]) 0 (RStr.bs []) 0 =
      Option.some true ∧
    (Filters.mk Option.none (fun _ => false)
        ["set", "hash", "sortedset", "string", "list"]).keyMatch (RStr.bs []) = false := by
  constructor
  · rfl
  · rfl

/-- C8 (amended): a record is decoded rather than diverted to the skip
path if and only if its database number is allowed by the dbs filter, its
key is either falsy (empty) or matches the key regular expression, and its
logical type (0 string; 1,10 list; 2,11 set; 3,12 sortedset; 4,9,13 hash)
is among the allowed types. -/
theorem C8_amended (flt : Filters) (db_number data_type : Nat) (key : RStr) :
    record_decoded flt db_number key data_type = Option.some true ↔
      (dbAllowed flt db_number = true ∧
        (rstrTruthy key = false ∨ flt.keyMatch key = true) ∧
        typeAllowed flt data_type = true) := by
  cases hl : flt.dbs with
  | none =>
    cases hg : get_logical_type data_type <;>
      cases hrt : rstrTruthy key <;>
      simp [record_decoded, matches_filter, dbAllowed, typeAllowed, hl, hg, hrt] <;>
      split_ifs <;> simp_all
  | some l =>
    cases hg : get_logical_type data_type <;>
      cases hrt : rstrTruthy key <;>
      simp [record_decoded, matches_filter, dbAllowed, typeAllowed, hl, hg, hrt] <;>
      split_ifs <;> simp_all <;> tauto

theorem elemCount_nil : elemCount [] = 0 := rfl

theorem elemCount_cons (e : Event) (l : List Event) :
    elemCount (e :: l) = (if isElemCallback e then 1 else 0) + elemCount l := by
  simp [elemCount, List.countP_cons]
  cases h : isElemCallback e <;> simp [h] <;> omega

theorem elemCount_append (a b : List Event) :
    elemCount (a ++ b) = elemCount a + elemCount b := by
  simp [elemCount, List.countP_append]

theorem stringElems_count (mk : RStr → Event) (hmk : ∀ v, isElemCallback (mk v) = true) :
    ∀ (n : Nat) (f : List Nat) (evs : List Event) (rest : List Nat),
      stringElems mk n f = Option.some (evs, rest) → elemCount evs = n := by
  intro n
  induction n with
  | zero =>
    intro f evs rest h
    have h2 : Option.some (([] : List Event), f) = Option.some (evs, rest) := h
    cases h2
    rfl
  | succ n ih =>
    intro f evs rest h
    simp only [stringElems] at h
    split at h
    · simp at h
    · rename_i v f1 heq
      split at h
      · simp at h
      · rename_i evs1 f2 hrec
        simp at h
        rw [← h.1, elemCount_cons]
        simp only [hmk, if_true]
        have hn := ih f1 evs1 f2 hrec
        omega

theorem zsetElems_count (key : RStr) :
    ∀ (n : Nat) (f : List Nat) (evs : List Event) (rest : List Nat),
      zsetElems key n f = Option.some (evs, rest) → elemCount evs = n := by
  intro n
  induction n with
  | zero =>
    intro f evs rest h
    have h2 : Option.some (([] : List Event), f) = Option.some (evs, rest) := h
    cases h2
    rfl
  | succ n ih =>
    intro f evs rest h
    simp only [zsetElems] at h
    split at h
    · simp at h
    · rename_i member f1 heq
      split at h
      · simp at h
      · rename_i dbl_length f2 heq2
        split at h
        · simp at h
        · rename_i evs1 f3 hrec
          simp at h
          rw [← h.1, elemCount_cons]
          simp only [isElemCallback, if_true]
          have hn := ih _ evs1 f3 hrec
          omega

theorem hashElems_count (key : RStr) :
    ∀ (n : Nat) (f : List Nat) (evs : List Event) (rest : List Nat),
      hashElems key n f = Option.some (evs, rest) → elemCount evs = n := by
  intro n
  induction n with
  | zero =>
    intro f evs rest h
    have h2 : Option.some (([] : List Event), f) = Option.some (evs, rest) := h
    cases h2
    rfl
  | succ n ih =>
    intro f evs rest h
    simp only [hashElems] at h
    split at h
    · simp at h
    · rename_i field f1 heq
      split at h
      · simp at h
      · rename_i value f2 heq2
        split at h
        · simp at h
        · rename_i evs1 f3 hrec
          simp at h
          rw [← h.1, elemCount_cons]
          simp only [isElemCallback, if_true]
          have hn := ih _ evs1 f3 hrec
          omega

theorem ziplistEntries_count (key : RStr) :
    ∀ (n : Nat) (f : List Nat) (evs : List Event) (rest : List Nat),
      ziplistEntries key n f = Option.some (evs, rest) → elemCount evs = n := by
  intro n
  induction n with
  | zero =>
    intro f evs rest h
    have h2 : Option.some (([] : List Event), f) = Option.some (evs, rest) := h
    cases h2
    rfl
  | succ n ih =>
    intro f evs rest h
    simp only [ziplistEntries] at h
    split at h
    · simp at h
    · rename_i v f1 heq
      split at h
      · simp at h
      · rename_i evs1 f2 hrec
        simp at h
        rw [← h.1, elemCount_cons]
        simp only [isElemCallback, if_true]
        have hn := ih _ evs1 f2 hrec
        omega

theorem ziplistZsetPairs_count (key : RStr) :
    ∀ (n : Nat) (f : List Nat) (evs : List Event) (rest : List Nat),
      ziplistZsetPairs key n f = Option.some (evs, rest) → elemCount evs = n := by
  intro n
  induction n with
  | zero =>
    intro f evs rest h
    have h2 : Option.some (([] : List Event), f) = Option.some (evs, rest) := h
    cases h2
    rfl
  | succ n ih =>
    intro f evs rest h
    simp only [ziplistZsetPairs] at h
    split at h
    · simp at h
    · rename_i member f1 heq
      split at h
      · simp at h
      · rename_i score f2 heq2
        split at h
        · simp at h
        · rename_i evs1 f3 hrec
          simp at h
          rw [← h.1, elemCount_cons]
          simp only [isElemCallback, if_true]
          have hn := ih _ evs1 f3 hrec
          omega

theorem ziplistHashPairs_count (key : RStr) :
    ∀ (n : Nat) (f : List Nat) (evs : List Event) (rest : List Nat),
      ziplistHashPairs key n f = Option.some (evs, rest) → elemCount evs = n := by
  intro n
  induction n with
  | zero =>
    intro f evs rest h
    have h2 : Option.some (([] : List Event), f) = Option.some (evs, rest) := h
    cases h2
    rfl
  | succ n ih =>
    intro f evs rest h
    simp only [ziplistHashPairs] at h
    split at h
    · simp at h
    · rename_i field f1 heq
      split at h
      · simp at h
      · rename_i value f2 heq2
        split at h
        · simp at h
        · rename_i evs1 f3 hrec
          simp at h
          rw [← h.1, elemCount_cons]
          simp only [isElemCallback, if_true]
          have hn := ih _ evs1 f3 hrec
          omega

theorem intsetEntries_count (key : RStr) (encoding : Nat) :
    ∀ (n : Nat) (f : List Nat) (evs : List Event) (rest : List Nat),
      intsetEntries key encoding n f = Option.some (evs, rest) → elemCount evs = n := by
  intro n
  induction n with
  | zero =>
    intro f evs rest h
    have h2 : Option.some (([] : List Event), f) = Option.some (evs, rest) := h
    cases h2
    rfl
  | succ n ih =>
    intro f evs rest h
    simp only [intsetEntries] at h
    split at h
    · simp at h
    · rename_i v f1 heq
      split at h
      · simp at h
      · rename_i evs1 f2 hrec
        simp at h
        rw [← h.1, elemCount_cons]
        simp only [isElemCallback, if_true]
        have hn := ih _ evs1 f2 hrec
        omega

theorem read_ziplist_inner_ok (key : RStr) (expiry : Option Nat) (blob : List Nat)
    (evs : List Event) (h : read_ziplist_inner key expiry blob = Option.some evs) :
    announced evs = Option.some (elemCount evs) := by
  simp only [read_ziplist_inner] at h
  split at h
  · simp at h
  · rename_i a b1 heq1
    split at h
    · simp at h
    · rename_i c b2 heq2
      split at h
      · simp at h
      · rename_i num b3 heq3
        split at h
        · simp at h
        · rename_i evs1 b4 hrec
          split at h
          · simp at h
          · rename_i zend b5 heq5
            split at h
            · simp at h
              rw [← h, announced, elemCount_cons, elemCount_append]
              have hn := ziplistEntries_count key num b3 evs1 b4 hrec
              simp only [elemCount] at hn
              simp [isElemCallback, elemCount, hn]
            · simp at h

theorem read_zset_from_ziplist_inner_ok (key : RStr) (expiry : Option Nat) (blob : List Nat)
    (evs : List Event) (h : read_zset_from_ziplist_inner key expiry blob = Option.some evs) :
    announced evs = Option.some (elemCount evs) := by
  simp only [read_zset_from_ziplist_inner] at h
  split at h
  · simp at h
  · rename_i a b1 heq1
    split at h
    · simp at h
    · rename_i c b2 heq2
      split at h
      · simp at h
      · rename_i num b3 heq3
        split at h
        · simp at h
        · split at h
          · simp at h
          · rename_i evs1 b4 hrec
            split at h
            · simp at h
            · rename_i zend b5 heq5
              split at h
              · simp at h
                rw [← h, announced, elemCount_cons, elemCount_append]
                have hn := ziplistZsetPairs_count key (num / 2) b3 evs1 b4 hrec
                simp only [elemCount] at hn
                simp [isElemCallback, elemCount, hn]
              · simp at h

theorem read_hash_from_ziplist_inner_ok (key : RStr) (expiry : Option Nat) (blob : List Nat)
    (evs : List Event) (h : read_hash_from_ziplist_inner key expiry blob = Option.some evs) :
    announced evs = Option.some (elemCount evs) := by
  simp only [read_hash_from_ziplist_inner] at h
  split at h
  · simp at h
  · rename_i a b1 heq1
    split at h
    · simp at h
    · rename_i c b2 heq2
      split at h
      · simp at h
      · rename_i num b3 heq3
        split at h
        · simp at h
        · split at h
          · simp at h
          · rename_i evs1 b4 hrec
            split at h
            · simp at h
            · rename_i zend b5 heq5
              split at h
              · simp at h
                rw [← h, announced, elemCount_cons, elemCount_append]
                have hn := ziplistHashPairs_count key (num / 2) b3 evs1 b4 hrec
                simp only [elemCount] at hn
                simp [isElemCallback, elemCount, hn]
              · simp at h

theorem read_intset_inner_ok (key : RStr) (expiry : Option Nat) (blob : List Nat)
    (evs : List Event) (h : read_intset_inner key expiry blob = Option.some evs) :
    announced evs = Option.some (elemCount evs) := by
  simp only [read_intset_inner] at h
  split at h
  · simp at h
  · rename_i encoding b1 heq1
    split at h
    · simp at h
    · rename_i num b2 heq2
      split at h
      · simp at h
      · rename_i evs1 b3 hrec
        simp at h
        rw [← h, announced, elemCount_cons, elemCount_append]
        have hn := intsetEntries_count key encoding num b2 evs1 b3 hrec
        simp only [elemCount] at hn
        simp [isElemCallback, elemCount, hn]

/-- C1 (amended): for every successfully parsed record of an aggregate
type other than a zipmap-encoded hash (list, set, sorted set, hash, and the
ziplist- and intset-encoded variants), the number of per-element callbacks
emitted between `start_X` and `end_X` equals exactly the length announced
in `start_X`. -/
theorem C1_amended (key : RStr) (expiry : Option Nat) (enc_type : Nat)
    (f : List Nat) (evs : List Event) (rest : List Nat)
    (h0 : enc_type ≠ 0) (h9 : enc_type ≠ 9)
    (h : read_object key expiry enc_type f = Option.some (evs, rest)) :
    announced evs = Option.some (elemCount evs) := by
  by_cases h1 : enc_type = 1
  · subst h1
    simp only [read_object] at h
    norm_num at h
    split at h
    · simp at h
    · rename_i length f1 heq
      split at h
      · simp at h
      · rename_i evs1 f2 hrec
        simp at h
        rw [← h.1, announced, elemCount_cons, elemCount_append]
        have hn := stringElems_count (Event.rpush key) (fun v => rfl) length f1 evs1 f2 hrec
        simp only [elemCount] at hn
        simp [isElemCallback, elemCount, hn]
  by_cases h2 : enc_type = 2
  · subst h2
    simp only [read_object] at h
    norm_num at h
    split at h
    · simp at h
    · rename_i length f1 heq
      split at h
      · simp at h
      · rename_i evs1 f2 hrec
        simp at h
        rw [← h.1, announced, elemCount_cons, elemCount_append]
        have hn := stringElems_count (Event.sadd key) (fun v => rfl) length f1 evs1 f2 hrec
        simp only [elemCount] at hn
        simp [isElemCallback, elemCount, hn]
  by_cases h3 : enc_type = 3
  · subst h3
    simp only [read_object] at h
    norm_num at h
    split at h
    · simp at h
    · rename_i length f1 heq
      split at h
      · simp at h
      · rename_i evs1 f2 hrec
        simp at h
        rw [← h.1, announced, elemCount_cons, elemCount_append]
        have hn := zsetElems_count key length f1 evs1 f2 hrec
        simp only [elemCount] at hn
        simp [isElemCallback, elemCount, hn]
  by_cases h4 : enc_type = 4
  · subst h4
    simp only [read_object] at h
    norm_num at h
    split at h
    · simp at h
    · rename_i length f1 heq
      split at h
      · simp at h
      · rename_i evs1 f2 hrec
        simp at h
        rw [← h.1, announced, elemCount_cons, elemCount_append]
        have hn := hashElems_count key length f1 evs1 f2 hrec
        simp only [elemCount] at hn
        simp [isElemCallback, elemCount, hn]
  by_cases h10 : enc_type = 10
  · subst h10
    simp only [read_object] at h
    norm_num at h
    simp only [readBlobObject] at h
    split at h
    · simp at h
    · rename_i blob rest1 heq
      split at h
      · simp at h
      · rename_i evs1 hinner
        simp at h
        rw [← h.1]
        exact read_ziplist_inner_ok key expiry blob evs1 hinner
    · simp at h
    · simp at h
  by_cases h11 : enc_type = 11
  · subst h11
    simp only [read_object] at h
    norm_num at h
    simp only [readBlobObject] at h
    split at h
    · simp at h
    · rename_i blob rest1 heq
      split at h
      · simp at h
      · rename_i evs1 hinner
        simp at h
        rw [← h.1]
        exact read_intset_inner_ok key expiry blob evs1 hinner
    · simp at h
    · simp at h
  by_cases h12 : enc_type = 12
  · subst h12
    simp only [read_object] at h
    norm_num at h
    simp only [readBlobObject] at h
    split at h
    · simp at h
    · rename_i blob rest1 heq
      split at h
      · simp at h
      · rename_i evs1 hinner
        simp at h
        rw [← h.1]
        exact read_zset_from_ziplist_inner_ok key expiry blob evs1 hinner
    · simp at h
    · simp at h
  by_cases h13 : enc_type = 13
  · subst h13
    simp only [read_object] at h
    norm_num at h
    simp only [readBlobObject] at h
    split at h
    · simp at h
    · rename_i blob rest1 heq
      split at h
      · simp at h
      · rename_i evs1 hinner
        simp at h
        rw [← h.1]
        exact read_hash_from_ziplist_inner_ok key expiry blob evs1 hinner
    · simp at h
    · simp at h
  simp only [read_object, h0, h1, h2, h3, h4, h9, h10, h11, h12, h13, if_false] at h
  simp at h

/-- C1 counterexample: a zipmap record whose blob declares 5 entries but
contains none parses successfully, emitting `start_hash` with length 5,
zero `hset` callbacks, and `end_hash`. -/
theorem C1_counterexample :
    read_object (RStr.bs [107]) Option.none 9 [2, 5, 255] =
      Option.some ([Event.start_hash (RStr.bs [107]) 5 Option.none,
        Event.end_hash (RStr.bs [107])], []) ∧
    announced [Event.start_hash (RStr.bs [107]) 5 Option.none,
        Event.end_hash (RStr.bs [107])] = Option.some 5 ∧
    elemCount [Event.start_hash (RStr.bs [107]) 5 Option.none,
        Event.end_hash (RStr.bs [107])] = 0 :=
  ⟨by decide, by decide, by decide⟩

/-- C1 witness: `C1_amended` applied to an empty plain list record. -/
theorem C1_witness :
    ((1 : Nat) ≠ 0 ∧ (1 : Nat) ≠ 9 ∧
      read_object (RStr.bs [107]) Option.none 1 [0] =
        Option.some ([Event.start_list (RStr.bs [107]) 0 Option.none,
          Event.end_list (RStr.bs [107])], [])) ∧
    announced [Event.start_list (RStr.bs [107]) 0 Option.none,
        Event.end_list (RStr.bs [107])] =
      Option.some (elemCount [Event.start_list (RStr.bs [107]) 0 Option.none,
        Event.end_list (RStr.bs [107])]) :=
  ⟨⟨by decide, by decide, by decide⟩,
    C1_amended (RStr.bs [107]) Option.none 1 [0] _ [] (by decide) (by decide) (by decide)⟩

theorem and_mask_shift (x a k : Nat) :
    x &&& ((2 ^ a - 1) <<< k) = (x >>> k % 2 ^ a) <<< k := by
  apply Nat.eq_of_testBit_eq
  intro i
  simp only [Nat.testBit_and, Nat.testBit_shiftLeft, Nat.testBit_mod_two_pow,
    Nat.testBit_shiftRight, Nat.testBit_two_pow_sub_one]
  by_cases hik : k ≤ i
  · have hk : k + (i - k) = i := by omega
    simp only [ge_iff_le, hik, decide_True, Bool.true_and, hk]
    cases hx : x.testBit i <;> cases hd : decide (i - k < a) <;> simp
  · simp [ge_iff_le, hik]

theorem ntohl_be (c0 c1 c2 c3 : Nat) (rest : List Nat) (h0 : c0 < 256) (h1 : c1 < 256)
    (h2 : c2 < 256) (h3 : c3 < 256) :
    ntohl (c0 :: c1 :: c2 :: c3 :: rest) =
      Option.some (16777216 * c0 + 65536 * c1 + 256 * c2 + c3, rest) := by
  have hval : (read_unsigned_int (c0 :: c1 :: c2 :: c3 :: rest)) =
      Option.some (c0 + 256 * c1 + 65536 * c2 + 16777216 * c3, rest) := rfl
  simp only [ntohl, hval]
  refine congrArg _ (Prod.ext ?_ rfl)
  set val := c0 + 256 * c1 + 65536 * c2 + 16777216 * c3 with hvaldef
  have m0 : val &&& 0xff = c0 := by
    have h := Nat.and_pow_two_sub_one_eq_mod val 8
    norm_num at h
    rw [h]
    omega
  have m1 : val &&& 0xff00 = 256 * c1 := by
    have heq : (0xff00 : Nat) = (2 ^ 8 - 1) <<< 8 := by decide
    rw [heq, and_mask_shift, Nat.shiftLeft_eq, Nat.shiftRight_eq_div_pow]
    have h : val / 2 ^ 8 % 2 ^ 8 = c1 := by omega
    rw [h]
    ring
  have m2 : val &&& 0xff0000 = 65536 * c2 := by
    have heq : (0xff0000 : Nat) = (2 ^ 8 - 1) <<< 16 := by decide
    rw [heq, and_mask_shift, Nat.shiftLeft_eq, Nat.shiftRight_eq_div_pow]
    have h : val / 2 ^ 16 % 2 ^ 8 = c2 := by omega
    rw [h]
    ring
  have m3 : val &&& 0xff000000 = 16777216 * c3 := by
    have heq : (0xff000000 : Nat) = (2 ^ 8 - 1) <<< 24 := by decide
    rw [heq, and_mask_shift, Nat.shiftLeft_eq, Nat.shiftRight_eq_div_pow]
    have h : val / 2 ^ 24 % 2 ^ 8 = c3 := by omega
    rw [h]
    ring
  simp only [m0, m1, m2, m3, Nat.zero_or]
  have sA : c0 <<< 24 = 2 ^ 24 * c0 := by rw [Nat.shiftLeft_eq]; ring
  have sB : (16777216 * c3) >>> 24 = c3 := by
    rw [Nat.shiftRight_eq_div_pow]
    omega
  have sC : (256 * c1) <<< 8 = 2 ^ 16 * c1 := by rw [Nat.shiftLeft_eq]; ring
  have sD : (65536 * c2) >>> 8 = 2 ^ 8 * c2 := by
    rw [Nat.shiftRight_eq_div_pow]
    omega
  rw [sA, sB, sC, sD]
  rw [Nat.lor_assoc, Nat.lor_assoc, Nat.lor_comm c3 ((2 ^ 16 * c1) ||| (2 ^ 8 * c2)),
    Nat.lor_assoc]
  rw [← Nat.mul_add_lt_is_or (show c3 < 2 ^ 8 by omega) c2]
  rw [← Nat.mul_add_lt_is_or (show 2 ^ 8 * c2 + c3 < 2 ^ 16 by omega) c1]
  rw [← Nat.mul_add_lt_is_or (show 2 ^ 16 * c1 + (2 ^ 8 * c2 + c3) < 2 ^ 24 by omega) c0]
  ring

theorem enc_type_eq_shift (b : Nat) (hb : b < 256) : (b &&& 0xC0) >>> 6 = b >>> 6 := by
  have h : ∀ c, c < 256 → (c &&& 0xC0) >>> 6 = c >>> 6 := by decide
  exact h b hb

/-- C5: the length/encoding codec returns: for tag 00 the low 6 bits of the
first byte; for tag 01 the 14-bit value (b AND 0x3F) * 256 + b2; for tag 10
the next four bytes as a big-endian unsigned 32-bit integer (the
little-endian read followed by the `ntohl` byte swap); and for tag 11 the
6-bit selector with encoded = true. -/
theorem C5_theorem (b b2 c0 c1 c2 c3 : Nat) (rest : List Nat)
    (hb : b < 256) (hb2 : b2 < 256) (h0 : c0 < 256) (h1 : c1 < 256) (h2 : c2 < 256)
    (h3 : c3 < 256) :
    (b >>> 6 = 0 → read_length_with_encoding (b :: rest) =
      Option.some ((b &&& 63, false), rest)) ∧
    (b >>> 6 = 1 → read_length_with_encoding (b :: b2 :: rest) =
      Option.some (((b &&& 63) * 256 + b2, false), rest)) ∧
    (b >>> 6 = 2 → read_length_with_encoding (b :: c0 :: c1 :: c2 :: c3 :: rest) =
      Option.some ((16777216 * c0 + 65536 * c1 + 256 * c2 + c3, false), rest)) ∧
    (b >>> 6 = 3 → read_length_with_encoding (b :: rest) =
      Option.some ((b &&& 63, true), rest)) :=
  by
  refine ⟨?_, ?_, ?_, ?_⟩
  · intro ht
    simp [read_length_with_encoding, read_unsigned_char, enc_type_eq_shift b hb, ht]
  · intro ht
    have hor : ((b &&& 63) <<< 8) ||| b2 = (b &&& 63) * 256 + b2 := by
      have hlt : b &&& 63 < 64 := by
        have h : ∀ c, c < 256 → c &&& 63 < 64 := by decide
        exact h b hb
      rw [Nat.shiftLeft_eq, Nat.mul_comm (b &&& 63) (2 ^ 8),
        ← Nat.mul_add_lt_is_or (show b2 < 2 ^ 8 by omega) (b &&& 63)]
    simp [read_length_with_encoding, read_unsigned_char, enc_type_eq_shift b hb, ht, hor]
  · intro ht
    simp [read_length_with_encoding, read_unsigned_char, enc_type_eq_shift b hb, ht,
      ntohl_be c0 c1 c2 c3 rest h0 h1 h2 h3]
  · intro ht
    simp [read_length_with_encoding, read_unsigned_char, enc_type_eq_shift b hb, ht]

/-- C5 witness: `C5_theorem` applied to the tag-10 prefix 0x8A with the
four big-endian length bytes 01 02 03 04. -/
theorem C5_witness :
    ((138 : Nat) >>> 6 = 2) ∧
      read_length_with_encoding [138, 1, 2, 3, 4, 9] =
        Option.some ((16909060, false), [9]) :=
  ⟨by decide,
    by
      have h := (C5_theorem 138 0 1 2 3 4 [9] (by decide) (by decide) (by decide)
        (by decide) (by decide) (by decide)).2.2.1 (by decide)
      simpa using h⟩


theorem lzfCopy_of_spec : ∀ (n : Nat) (out : List Nat) (ref : Int) (r : List Nat),
    lzfSpecCopy out ref n = Option.some r → lzfCopyRef out ref n = Option.some r := by
  intro n
  induction n with
  | zero => intro out ref r h; exact h
  | succ n ih =>
    intro out ref r h
    simp only [lzfSpecCopy] at h
    split at h
    · simp at h
    · rename_i b hget
      have hpy : pyGet out ref = Option.some b := by
        simp only [refGet] at hget
        split at hget
        · rename_i hpos
          simp only [pyGet, hpos, if_pos]
          exact hget
        · simp at hget
      simp only [lzfCopyRef, hpy]
      exact ih _ _ _ h

theorem lzfLoop_of_spec : ∀ (fuel : Nat) (C : List Nat) (i : Nat) (out r : List Nat),
    lzfSpecLoop C fuel i out = Option.some r → lzfLoop C fuel i out = Option.some r := by
  intro fuel
  induction fuel with
  | zero => intro C i out r h; simp [lzfSpecLoop] at h
  | succ fuel ih =>
    intro C i out r h
    simp only [lzfSpecLoop] at h
    simp only [lzfLoop]
    cases hget : C[i]? with
    | none =>
      simp only [hget] at h
      simp only [hget]
      exact h
    | some ctrl =>
      simp only [hget] at h
      simp only [hget]
      by_cases hc : ctrl < 32
      · rw [if_pos hc] at h
        rw [if_pos hc]
        by_cases hlen : i + 1 + (ctrl + 1) ≤ C.length
        · rw [if_pos hlen] at h
          rw [if_pos hlen]
          exact ih _ _ _ _ h
        · rw [if_neg hlen] at h
          simp at h
      · rw [if_neg hc] at h
        rw [if_neg hc]
        by_cases h7 : ctrl >>> 5 = 7
        · rw [if_pos h7] at h
          rw [if_pos h7]
          cases hext : C[i + 1]? with
          | none => simp only [hext] at h; simp at h
          | some ext =>
            simp only [hext] at h
            simp only [hext]
            cases hb2 : C[i + 2]? with
            | none => simp only [hb2] at h; simp at h
            | some b2 =>
              simp only [hb2] at h
              simp only [hb2]
              cases hcopy : lzfSpecCopy out
                  ((out.length : Int) - (((ctrl &&& 0x1f) <<< 8) : Nat) - (b2 : Int) - 1)
                  (7 + ext + 2) with
              | none => simp only [hcopy] at h; simp at h
              | some out2 =>
                simp only [hcopy] at h
                simp only [lzfCopy_of_spec _ _ _ _ hcopy]
                exact ih _ _ _ _ h
        · rw [if_neg h7] at h
          rw [if_neg h7]
          cases hb2 : C[i + 1]? with
          | none => simp only [hb2] at h; simp at h
          | some b2 =>
            simp only [hb2] at h
            simp only [hb2]
            cases hcopy : lzfSpecCopy out
                ((out.length : Int) - (((ctrl &&& 0x1f) <<< 8) : Nat) - (b2 : Int) - 1)
                (ctrl >>> 5 + 2) with
            | none => simp only [hcopy] at h; simp at h
            | some out2 =>
              simp only [hcopy] at h
              simp only [lzfCopy_of_spec _ _ _ _ hcopy]
              exact ih _ _ _ _ h

/-- C6: `lzf_decompress` implements standard LZF.  Whenever the
specification algorithm (literal runs for control bytes below 32,
back-references of length (ctrl >>> 5) + 2 with an extension byte when the
length field is 7, copied byte-by-byte from offset
o - ((ctrl AND 0x1F) <<< 8) - b2 - 1 with overlap allowed) produces an
output, the source function produces the same output; and every successful
output has exactly the declared expected length, the function failing
otherwise. -/
theorem C6_theorem (compressed : List Nat) (expected_length : Nat) :
    (∀ r, lzf_decompress_spec compressed expected_length = Option.some r →
       lzf_decompress compressed expected_length = Option.some r) ∧
    (∀ out, lzf_decompress compressed expected_length = Option.some out →
       out.length = expected_length) := by
  constructor
  · intro r h
    simp only [lzf_decompress_spec] at h
    simp only [lzf_decompress]
    cases hrun : lzfSpecLoop compressed (compressed.length + 1) 0 [] with
    | none => simp [hrun] at h
    | some out =>
      simp only [hrun] at h
      rw [lzfLoop_of_spec _ _ _ _ _ hrun]
      exact h
  · intro out h
    simp only [lzf_decompress] at h
    split at h
    · simp at h
    · rename_i out1 hrun
      split at h
      · rename_i hlen
        simp at h
        rw [← h]
        exact hlen
      · simp at h

/-- C6 witness: `C6_theorem` applied to the compressed input
[1, 97, 98, 32, 1], whose back-reference overlaps its own output. -/
theorem C6_witness :
    lzf_decompress_spec [1, 97, 98, 32, 1] 5 = Option.some [97, 98, 97, 98, 97] ∧
    lzf_decompress [1, 97, 98, 32, 1] 5 = Option.some [97, 98, 97, 98, 97] ∧
    ([97, 98, 97, 98, 97] : List Nat).length = 5 := by
  have h1 : lzf_decompress_spec [1, 97, 98, 32, 1] 5 = Option.some [97, 98, 97, 98, 97] := by
    decide
  have h2 := (C6_theorem [1, 97, 98, 32, 1] 5).1 _ h1
  exact ⟨h1, h2, (C6_theorem [1, 97, 98, 32, 1] 5).2 _ h2⟩

theorem read_signed_char_rest (f : List Nat) (v : Int) (rest : List Nat)
    (h : read_signed_char f = Option.some (v, rest)) : rest = f.drop 1 := by
  cases f with
  | nil => simp [read_signed_char, read_unsigned_char] at h
  | cons b t =>
    simp [read_signed_char, read_unsigned_char] at h
    exact h.2.symm

theorem read_signed_short_rest (f : List Nat) (v : Int) (rest : List Nat)
    (h : read_signed_short f = Option.some (v, rest)) : rest = f.drop 2 := by
  rcases f with _ | ⟨b0, _ | ⟨b1, t⟩⟩ <;>
    simp [read_signed_short, read_unsigned_short] at h
  exact h.2.symm

theorem read_signed_int_rest (f : List Nat) (v : Int) (rest : List Nat)
    (h : read_signed_int f = Option.some (v, rest)) : rest = f.drop 4 := by
  rcases f with _ | ⟨b0, _ | ⟨b1, _ | ⟨b2, _ | ⟨b3, t⟩⟩⟩⟩ <;>
    simp [read_signed_int, read_unsigned_int] at h
  exact h.2.symm

theorem skip_string_of_read (f : List Nat) (v : RStr) (rest : List Nat)
    (h : read_string f = Option.some (v, rest)) : skip_string f = Option.some rest := by
  simp only [read_string] at h
  simp only [skip_string]
  cases hrl : read_length_with_encoding f with
  | none => rw [hrl] at h; simp at h
  | some p =>
    obtain ⟨⟨length, is_encoded⟩, f1⟩ := p
    rw [hrl] at h
    simp only [hrl]
    cases is_encoded with
    | false =>
      simp only [if_neg Bool.false_ne_true] at h
      simp only [if_neg Bool.false_ne_true]
      simp at h
      simp [skip, h.2]
    | true =>
      simp only [if_pos rfl] at h
      simp only [if_pos rfl]
      by_cases h0 : length = 0
      · rw [if_pos h0] at h
        rw [if_pos h0]
        cases hrd : read_signed_char f1 with
        | none => rw [hrd] at h; simp at h
        | some q =>
          rw [hrd] at h
          simp at h
          have := read_signed_char_rest f1 q.1 q.2 (by rw [hrd])
          simp [skip, ← h.2, this]
      · rw [if_neg h0] at h
        rw [if_neg h0]
        by_cases h1 : length = 1
        · rw [if_pos h1] at h
          rw [if_pos h1]
          cases hrd : read_signed_short f1 with
          | none => rw [hrd] at h; simp at h
          | some q =>
            rw [hrd] at h
            simp at h
            have := read_signed_short_rest f1 q.1 q.2 (by rw [hrd])
            simp [skip, ← h.2, this]
        · rw [if_neg h1] at h
          rw [if_neg h1]
          by_cases h2 : length = 2
          · rw [if_pos h2] at h
            rw [if_pos h2]
            cases hrd : read_signed_int f1 with
            | none => rw [hrd] at h; simp at h
            | some q =>
              rw [hrd] at h
              simp at h
              have := read_signed_int_rest f1 q.1 q.2 (by rw [hrd])
              simp [skip, ← h.2, this]
          · rw [if_neg h2] at h
            rw [if_neg h2]
            by_cases h3 : length = 3
            · rw [if_pos h3] at h
              rw [if_pos h3]
              cases hcl : read_length f1 with
              | none => simp only [hcl] at h; simp at h
              | some qc =>
                obtain ⟨clen, f2⟩ := qc
                simp only [hcl] at h
                simp only [hcl]
                cases hl : read_length f2 with
                | none => simp only [hl] at h; simp at h
                | some ql =>
                  obtain ⟨l, f3⟩ := ql
                  simp only [hl] at h
                  simp only [hl]
                  cases hlzf : lzf_decompress (f3.take clen) l with
                  | none => simp only [hlzf] at h; simp at h
                  | some out =>
                    simp only [hlzf] at h
                    simp at h
                    simp [skip, h.2]
            · rw [if_neg h3] at h
              rw [if_neg h3]
              simp at h
              simp [skip, h.2]

theorem skip_string_small (dbl_length : Nat) (hL : dbl_length < 64) (f2 : List Nat) :
    skip_string (dbl_length :: f2) = Option.some (f2.drop dbl_length) := by
  have henc : (dbl_length &&& 0xC0) >>> 6 = 0 := by
    have h : ∀ c, c < 64 → (c &&& 0xC0) >>> 6 = 0 := by decide
    exact h dbl_length hL
  have hmask : dbl_length &&& 0x3F = dbl_length := by
    have h : ∀ c, c < 64 → c &&& 0x3F = c := by decide
    exact h dbl_length hL
  simp [skip_string, read_length_with_encoding, read_unsigned_char, henc, hmask, skip]

theorem read_unsigned_char_cons (f : List Nat) (b : Nat) (rest : List Nat)
    (h : read_unsigned_char f = Option.some (b, rest)) : f = b :: rest := by
  cases f with
  | nil => simp [read_unsigned_char] at h
  | cons x t =>
    simp [read_unsigned_char] at h
    rw [h.1, h.2]

theorem skipStrings_of_stringElems (mk : RStr → Event) :
    ∀ (n : Nat) (f : List Nat) (evs : List Event) (rest : List Nat),
      stringElems mk n f = Option.some (evs, rest) → skipStrings n f = Option.some rest := by
  intro n
  induction n with
  | zero =>
    intro f evs rest h
    have h2 : Option.some (([] : List Event), f) = Option.some (evs, rest) := h
    cases h2
    rfl
  | succ n ih =>
    intro f evs rest h
    simp only [stringElems] at h
    split at h
    · simp at h
    · rename_i v f1 heq
      split at h
      · simp at h
      · rename_i evs1 f2 hrec
        simp at h
        simp only [skipStrings, skip_string_of_read f v f1 heq]
        rw [← h.2]
        exact ih f1 evs1 f2 hrec

theorem skipStrings_of_hashElems (key : RStr) :
    ∀ (n : Nat) (f : List Nat) (evs : List Event) (rest : List Nat),
      hashElems key n f = Option.some (evs, rest) →
      skipStrings (n * 2) f = Option.some rest := by
  intro n
  induction n with
  | zero =>
    intro f evs rest h
    have h2 : Option.some (([] : List Event), f) = Option.some (evs, rest) := h
    cases h2
    rfl
  | succ n ih =>
    intro f evs rest h
    simp only [hashElems] at h
    split at h
    · simp at h
    · rename_i field f1 heq1
      split at h
      · simp at h
      · rename_i value f2 heq2
        split at h
        · simp at h
        · rename_i evs1 f3 hrec
          simp at h
          have hmul : Nat.succ n * 2 = Nat.succ (Nat.succ (n * 2)) := by omega
          rw [hmul]
          simp only [skipStrings, skip_string_of_read f field f1 heq1,
            skip_string_of_read f1 value f2 heq2]
          rw [← h.2]
          exact ih f2 evs1 f3 hrec

theorem skipStrings_of_zsetElems (key : RStr) :
    ∀ (n : Nat) (f : List Nat) (evs : List Event) (rest : List Nat),
      zsetElems key n f = Option.some (evs, rest) → zsetScoresShortLoop n f = true →
      skipStrings (n * 2) f = Option.some rest := by
  intro n
  induction n with
  | zero =>
    intro f evs rest h _
    have h2 : Option.some (([] : List Event), f) = Option.some (evs, rest) := h
    cases h2
    rfl
  | succ n ih =>
    intro f evs rest h hs
    simp only [zsetElems] at h
    simp only [zsetScoresShortLoop] at hs
    split at h
    · simp at h
    · rename_i member f1 heq1
      split at h
      · simp at h
      · rename_i dbl_length f2 heq2
        simp only [heq1, heq2] at hs
        simp at hs
        split at h
        · simp at h
        · rename_i evs1 f3 hrec
          simp at h
          have hf1 : f1 = dbl_length :: f2 := read_unsigned_char_cons f1 dbl_length f2 heq2
          have hmul : Nat.succ n * 2 = Nat.succ (Nat.succ (n * 2)) := by omega
          rw [hmul]
          simp only [skipStrings, skip_string_of_read f member f1 heq1]
          rw [hf1, skip_string_small dbl_length hs.1 f2]
          rw [← h.2]
          exact ih (f2.drop dbl_length) evs1 f3 hrec hs.2

/-- C7 (amended): for every record that decodes successfully, the skip
path consumes exactly the same bytes and leaves the same remaining stream,
provided that for plain sorted sets (tag 3) every score length byte is
below 64 (i.e. carries length-prefix tag 00), which holds for every score
a real dump can contain. -/
theorem C7_amended (key : RStr) (expiry : Option Nat) (enc_type : Nat) (f : List Nat)
    (evs : List Event) (rest : List Nat)
    (h : read_object key expiry enc_type f = Option.some (evs, rest))
    (hz : enc_type = 3 → zsetScoresShort f = true) :
    skip_object enc_type f = Option.some rest := by
  by_cases h0 : enc_type = 0
  · subst h0
    simp only [read_object] at h
    norm_num at h
    split at h
    · simp at h
    · rename_i val f1 heq
      simp at h
      simp only [skip_object]
      norm_num
      simp only [skipStrings, skip_string_of_read f val f1 heq]
      rw [h.2]
  by_cases h1 : enc_type = 1
  · subst h1
    simp only [read_object] at h
    norm_num at h
    split at h
    · simp at h
    · rename_i length f1 heq
      split at h
      · simp at h
      · rename_i evs1 f2 hrec
        simp at h
        simp only [skip_object]
        norm_num
        simp only [heq]
        rw [← h.2]
        exact skipStrings_of_stringElems (Event.rpush key) length f1 evs1 f2 hrec
  by_cases h2 : enc_type = 2
  · subst h2
    simp only [read_object] at h
    norm_num at h
    split at h
    · simp at h
    · rename_i length f1 heq
      split at h
      · simp at h
      · rename_i evs1 f2 hrec
        simp at h
        simp only [skip_object]
        norm_num
        simp only [heq]
        rw [← h.2]
        exact skipStrings_of_stringElems (Event.sadd key) length f1 evs1 f2 hrec
  by_cases h3 : enc_type = 3
  · subst h3
    have hss := hz rfl
    simp only [read_object] at h
    norm_num at h
    split at h
    · simp at h
    · rename_i length f1 heq
      split at h
      · simp at h
      · rename_i evs1 f2 hrec
        simp at h
        simp only [zsetScoresShort, heq] at hss
        simp only [skip_object]
        norm_num
        simp only [heq]
        rw [← h.2]
        exact skipStrings_of_zsetElems key length f1 evs1 f2 hrec hss
  by_cases h4 : enc_type = 4
  · subst h4
    simp only [read_object] at h
    norm_num at h
    split at h
    · simp at h
    · rename_i length f1 heq
      split at h
      · simp at h
      · rename_i evs1 f2 hrec
        simp at h
        simp only [skip_object]
        norm_num
        simp only [heq]
        rw [← h.2]
        exact skipStrings_of_hashElems key length f1 evs1 f2 hrec
  by_cases h9 : enc_type = 9
  · subst h9
    simp only [read_object] at h
    norm_num at h
    simp only [readBlobObject] at h
    split at h
    · simp at h
    · rename_i blob rest1 heq
      split at h
      · simp at h
      · rename_i evs1 hinner
        simp at h
        simp only [skip_object]
        norm_num
        simp only [skipStrings, skip_string_of_read f (RStr.bs blob) rest1 heq]
        rw [h.2]
    · simp at h
    · simp at h
  by_cases h10 : enc_type = 10
  · subst h10
    simp only [read_object] at h
    norm_num at h
    simp only [readBlobObject] at h
    split at h
    · simp at h
    · rename_i blob rest1 heq
      split at h
      · simp at h
      · rename_i evs1 hinner
        simp at h
        simp only [skip_object]
        norm_num
        simp only [skipStrings, skip_string_of_read f (RStr.bs blob) rest1 heq]
        rw [h.2]
    · simp at h
    · simp at h
  by_cases h11 : enc_type = 11
  · subst h11
    simp only [read_object] at h
    norm_num at h
    simp only [readBlobObject] at h
    split at h
    · simp at h
    · rename_i blob rest1 heq
      split at h
      · simp at h
      · rename_i evs1 hinner
        simp at h
        simp only [skip_object]
        norm_num
        simp only [skipStrings, skip_string_of_read f (RStr.bs blob) rest1 heq]
        rw [h.2]
    · simp at h
    · simp at h
  by_cases h12 : enc_type = 12
  · subst h12
    simp only [read_object] at h
    norm_num at h
    simp only [readBlobObject] at h
    split at h
    · simp at h
    · rename_i blob rest1 heq
      split at h
      · simp at h
      · rename_i evs1 hinner
        simp at h
        simp only [skip_object]
        norm_num
        simp only [skipStrings, skip_string_of_read f (RStr.bs blob) rest1 heq]
        rw [h.2]
    · simp at h
    · simp at h
  by_cases h13 : enc_type = 13
  · subst h13
    simp only [read_object] at h
    norm_num at h
    simp only [readBlobObject] at h
    split at h
    · simp at h
    · rename_i blob rest1 heq
      split at h
      · simp at h
      · rename_i evs1 hinner
        simp at h
        simp only [skip_object]
        norm_num
        simp only [skipStrings, skip_string_of_read f (RStr.bs blob) rest1 heq]
        rw [h.2]
    · simp at h
    · simp at h
  simp only [read_object, h0, h1, h2, h3, h4, h9, h10, h11, h12, h13, if_false] at h
  simp at h

/-- C7 counterexample: a plain sorted-set record whose single score is 64
ASCII bytes long decodes successfully, but the skip path misreads the score
length byte 0x40 as a 14-bit length prefix and leaves a different remaining
stream, refuting the claimed decode/skip byte-count equality. -/
theorem C7_counterexample :
    read_object (RStr.bs [107]) Option.none 3
        ([1, 1, 97, 64] ++ List.replicate 64 49 ++ [9, 9, 9]) =
      Option.some ([Event.start_sorted_set (RStr.bs [107]) 1 Option.none,
        Event.zadd (RStr.bs [107]) (RStr.bs (List.replicate 64 49)) (RStr.bs [97]),
        Event.end_sorted_set (RStr.bs [107])], [9, 9, 9]) ∧
    skip_object 3 ([1, 1, 97, 64] ++ List.replicate 64 49 ++ [9, 9, 9]) =
      Option.some (List.replicate 14 49 ++ [9, 9, 9]) ∧
    (List.replicate 14 49 ++ [9, 9, 9] : List Nat) ≠ [9, 9, 9] :=
  ⟨by decide, by decide, by decide⟩

/-- C7 witness: `C7_amended` applied to a plain string record. -/
theorem C7_witness :
    (read_object (RStr.bs [107]) Option.none 0 [1, 97, 5, 5] =
      Option.some ([Event.set (RStr.bs [107]) (RStr.bs [97]) Option.none], [5, 5])) ∧
    skip_object 0 [1, 97, 5, 5] = Option.some [5, 5] :=
  ⟨by decide, C7_amended (RStr.bs [107]) Option.none 0 [1, 97, 5, 5]
    [Event.set (RStr.bs [107]) (RStr.bs [97]) Option.none] [5, 5] (by decide)
    (fun hh => absurd hh (by decide))⟩
